import Mathlib

/-!
Verification development for a SOCKS5 proxy server written in Rust
(`src/advanced.rs`, with `src/basic.rs` sharing the same request codec,
reply encoder and relay engine).  The wire codec, the authenticator and
the session state machine are embedded shallowly: byte streams are
`List Nat` (each element a byte value), Rust `String`s are `List Char`
(sequences of Unicode scalar values), and the blocking socket I/O is
replaced by explicit threading of the remaining input together with a
trace of the observable actions the server performs.
-/

namespace Socks5

/-! ## UTF-8: lossy decoding and encoding

`String::from_utf8_lossy` decodes a byte sequence, replacing each maximal
invalid subsequence with U+FFFD.  `utf8Step` decodes one step: given the
first byte and the remaining bytes it yields the produced character and
how many bytes beyond the first were consumed, following the UTF-8
validation ranges used by the Rust standard library. -/

/-- Continuation-byte test: `0x80 ≤ b ≤ 0xBF`. -/
def utf8Cont (b : Nat) : Bool := decide (128 ≤ b) && decide (b ≤ 191)

/-- First continuation byte of a three-byte sequence: the admissible range
depends on the leading byte (`0xE0` and `0xED` are restricted). -/
def utf8Cont3First (b0 b1 : Nat) : Bool :=
  if b0 = 224 then decide (160 ≤ b1) && decide (b1 ≤ 191)
  else if b0 = 237 then decide (128 ≤ b1) && decide (b1 ≤ 159)
  else utf8Cont b1

/-- First continuation byte of a four-byte sequence: the admissible range
depends on the leading byte (`0xF0` and `0xF4` are restricted). -/
def utf8Cont4First (b0 b1 : Nat) : Bool :=
  if b0 = 240 then decide (144 ≤ b1) && decide (b1 ≤ 191)
  else if b0 = 244 then decide (128 ≤ b1) && decide (b1 ≤ 143)
  else utf8Cont b1

/-- The Unicode replacement character U+FFFD. -/
def replacementChar : Char := Char.ofNat 0xFFFD

/-- Decode one UTF-8 step: the produced character (the decoded scalar, or
U+FFFD for a maximal invalid subsequence) and the number of bytes consumed
beyond the leading byte `b0`. -/
def utf8Step (b0 : Nat) (rest : List Nat) : Char × Nat :=
  if b0 < 128 then (Char.ofNat b0, 0)
  else if b0 < 194 then (replacementChar, 0)
  else if b0 ≤ 223 then
    match rest with
    | [] => (replacementChar, 0)
    | b1 :: _ =>
      if utf8Cont b1 then (Char.ofNat ((b0 - 192) * 64 + (b1 - 128)), 1)
      else (replacementChar, 0)
  else if b0 ≤ 239 then
    match rest with
    | [] => (replacementChar, 0)
    | b1 :: rest1 =>
      if utf8Cont3First b0 b1 then
        match rest1 with
        | [] => (replacementChar, 1)
        | b2 :: _ =>
          if utf8Cont b2 then
            (Char.ofNat ((b0 - 224) * 4096 + (b1 - 128) * 64 + (b2 - 128)), 2)
          else (replacementChar, 1)
      else (replacementChar, 0)
  else if b0 ≤ 244 then
    match rest with
    | [] => (replacementChar, 0)
    | b1 :: rest1 =>
      if utf8Cont4First b0 b1 then
        match rest1 with
        | [] => (replacementChar, 1)
        | b2 :: rest2 =>
          if utf8Cont b2 then
            match rest2 with
            | [] => (replacementChar, 2)
            | b3 :: _ =>
              if utf8Cont b3 then
                (Char.ofNat
                  ((b0 - 240) * 262144 + (b1 - 128) * 4096 + (b2 - 128) * 64 + (b3 - 128)), 3)
              else (replacementChar, 2)
          else (replacementChar, 1)
      else (replacementChar, 0)
  else (replacementChar, 0)

/-- Lossy UTF-8 decoding of a whole byte list, as performed by
`String::from_utf8_lossy`. -/
def utf8Lossy : List Nat → List Char
  | [] => []
  | b :: rest => (utf8Step b rest).1 :: utf8Lossy (rest.drop (utf8Step b rest).2)
termination_by l => l.length
decreasing_by simp [List.length_drop]; omega

/-- Standard UTF-8 encoding of one Unicode scalar value. -/
def utf8EncodeChar (c : Char) : List Nat :=
  if c.toNat < 128 then [c.toNat]
  else if c.toNat < 2048 then [192 + c.toNat / 64, 128 + c.toNat % 64]
  else if c.toNat < 65536 then
    [224 + c.toNat / 4096, 128 + c.toNat / 64 % 64, 128 + c.toNat % 64]
  else
    [240 + c.toNat / 262144, 128 + c.toNat / 4096 % 64, 128 + c.toNat / 64 % 64,
     128 + c.toNat % 64]

/-- Standard UTF-8 encoding of a character sequence. -/
def utf8Encode : List Char → List Nat
  | [] => []
  | c :: s => utf8EncodeChar c ++ utf8Encode s

/-! ## Wire data model

Mirrors the Rust types `Address`, `Command`, `Reply`, `Request`, and the
`std::net::SocketAddr` values used for bound addresses. -/

/-- The `Address` enum: each ATYP variant.  IPv4 and IPv6 addresses are
kept as their octet lists; a domain is the lossily decoded string. -/
inductive Addr where
  | ipv4 (octets : List Nat)
  | domain (name : List Char)
  | ipv6 (octets : List Nat)
deriving DecidableEq

/-- The `Command` enum. -/
inductive Cmd where
  | connect
  | bind
  | udpAssociate
  | unknown (code : Nat)
deriving DecidableEq

/-- The `From<u8> for Command` mapping. -/
def Cmd.fromByte (code : Nat) : Cmd :=
  match code with
  | 1 => .connect
  | 2 => .bind
  | 3 => .udpAssociate
  | other => .unknown other

/-- The `Request` struct. -/
structure Req where
  command : Cmd
  address : Addr
  port : Nat
deriving DecidableEq

/-- The `Reply` enum. -/
inductive Rep where
  | succeeded
  | generalFailure
  | commandNotSupported
deriving DecidableEq

/-- The discriminant of each `Reply` variant (`Reply::code`). -/
def Rep.code : Rep → Nat
  | .succeeded => 0x00
  | .generalFailure => 0x01
  | .commandNotSupported => 0x07

/-- A `std::net::SocketAddr`: an IPv4 or IPv6 address paired with a port. -/
inductive SockAddr where
  | v4 (octets : List Nat) (port : Nat)
  | v6 (octets : List Nat) (port : Nat)
deriving DecidableEq

/-- The `default_bound_address` function: `0.0.0.0:0`. -/
def default_bound_address : SockAddr := .v4 [0, 0, 0, 0] 0

/-- Errors a session can terminate with; each constructor corresponds to
one `io::Error` the Rust code constructs (or forwards). -/
inductive SessionError where
  | eofError
  | protocolVersion
  | malformedRequest
  | unsupportedAddressType
  | noAcceptableMethod
  | invalidAuthVersion
  | authenticationFailed
  | unsupportedCommand
  | connectError
  | transportError
  | relayThreadPanicked
deriving DecidableEq

/-! ## Wire codec

`read_exact` on a `TcpStream` is modelled by `takeN?`: it either yields
exactly the requested bytes together with the remaining input, or fails
(end of stream before enough bytes arrived). -/

/-- Take exactly `n` bytes from the front of the input, or fail. -/
def takeN? (n : Nat) (l : List Nat) : Option (List Nat × List Nat) :=
  if n ≤ l.length then some (l.take n, l.drop n) else none

/-- The `read_greeting` function: two header bytes (version, method
count), a version check, then exactly `count` method bytes.  Returns the
offered methods and the remaining input. -/
def read_greeting : List Nat → Except SessionError (List Nat × List Nat)
  | ver :: count :: rest =>
    if ver ≠ 5 then .error .protocolVersion
    else
      match takeN? count rest with
      | some (methods, rest) => .ok (methods, rest)
      | none => .error .eofError
  | _ => .error .eofError

/-- Address part of `read_request`: dispatch on the ATYP byte. -/
def readAddr (atyp : Nat) (rest : List Nat) : Except SessionError (Addr × List Nat) :=
  match atyp with
  | 1 =>
    match takeN? 4 rest with
    | some (octets, rest) => .ok (.ipv4 octets, rest)
    | none => .error .eofError
  | 3 =>
    match rest with
    | len :: rest =>
      match takeN? len rest with
      | some (domainBytes, rest) => .ok (.domain (utf8Lossy domainBytes), rest)
      | none => .error .eofError
    | [] => .error .eofError
  | 4 =>
    match takeN? 16 rest with
    | some (octets, rest) => .ok (.ipv6 octets, rest)
    | none => .error .eofError
  | _ => .error .unsupportedAddressType

/-- The `read_request` function: a four-byte header (VER, CMD, RSV, ATYP)
with the version checked first and the reserved byte required to be zero,
then the ATYP-dependent address bytes, then a two-byte big-endian port. -/
def read_request (input : List Nat) : Except SessionError (Req × List Nat) :=
  match input with
  | ver :: cmd :: rsv :: atyp :: rest =>
    if ver ≠ 5 then .error .protocolVersion
    else
      let command := Cmd.fromByte cmd
      if rsv ≠ 0 then .error .malformedRequest
      else
        match readAddr atyp rest with
        | .error e => .error e
        | .ok (address, rest) =>
          match rest with
          | p1 :: p2 :: tail => .ok (⟨command, address, p1 * 256 + p2⟩, tail)
          | _ => .error .eofError
  | _ => .error .eofError

/-- Reply bytes built by `send_reply`: `VER, REP, RSV, ATYP, BND.ADDR,
BND.PORT`, where a missing bound address is replaced by `0.0.0.0:0`. -/
def encodeReply (reply : Rep) (bound : Option SockAddr) : List Nat :=
  [5, reply.code, 0] ++
    match bound.getD default_bound_address with
    | .v4 octets port => 1 :: (octets ++ [port / 256, port % 256])
    | .v6 octets port => 4 :: (octets ++ [port / 256, port % 256])

/-! ## Authenticator

Credentials come from the environment overrides `PROXY_USERNAME` /
`PROXY_PASSWORD` when set, else the fixed defaults. -/

/-- The optional environment overrides read by `env::var`. -/
structure EnvConfig where
  user : Option (List Char)
  pass : Option (List Char)
deriving DecidableEq

/-- Expected username: the `PROXY_USERNAME` override, else `"user"`. -/
def expectedUser (env : EnvConfig) : List Char := env.user.getD ("user".toList)

/-- Expected password: the `PROXY_PASSWORD` override, else `"password"`. -/
def expectedPass (env : EnvConfig) : List Char := env.pass.getD ("password".toList)

/-- The credential comparison performed by `perform_userpass_auth`. -/
def authenticate (username password : List Char) (env : EnvConfig) : Bool :=
  username == expectedUser env && password == expectedPass env

/-! ## Session state machine

Observable actions of a session, in order: bytes sent to the client,
entering the request-reading phase, an outbound connection attempt, and
handing the sockets to the relay engine.  Writes to the client are
modelled with an optional byte budget: `none` means every write succeeds,
`some k` makes a write fail (a transport error) once it would exceed the
remaining budget. -/

/-- One observable action of the session state machine. -/
inductive Action where
  | send (bytes : List Nat)
  | readReq
  | connectTo (address : Addr) (port : Nat)
  | relay
deriving DecidableEq

/-- Client-connection state: remaining write budget and the trace of
actions performed so far. -/
structure Conn where
  budget : Option Nat
  trace : List Action
deriving DecidableEq

/-- The `write_all` + `flush` pair on the client socket. -/
def sendAll (bytes : List Nat) (c : Conn) : Except SessionError Unit × Conn :=
  match c.budget with
  | none => (.ok (), { c with trace := c.trace ++ [.send bytes] })
  | some k =>
    if bytes.length ≤ k then
      (.ok (), { budget := some (k - bytes.length), trace := c.trace ++ [.send bytes] })
    else (.error .transportError, c)

deriving instance DecidableEq for Except

/-- The non-I/O inputs of one session: the bytes the client will send, the
write budget, the credential environment, whether the outbound TCP connect
succeeds, the local address of the outbound socket when it does, and the
relay engine's overall outcome. -/
structure World where
  input : List Nat
  budget : Option Nat
  env : EnvConfig
  connectOk : Bool
  localAddr : Option SockAddr
  relayOutcome : Except SessionError Unit
deriving DecidableEq

/-- The `perform_userpass_auth` function: read the two-byte sub-negotiation
header; on a version other than 1 send `[1, 1]` (ignoring write errors)
and fail; otherwise read the username and password, compare them against
the expected credentials, answer `[1, 0]` on success and `[1, 1]` followed
by failure otherwise. -/
def perform_userpass_auth (env : EnvConfig) (input : List Nat) (c : Conn) :
    Except SessionError Unit × List Nat × Conn :=
  match takeN? 2 input with
  | none => (.error .eofError, input, c)
  | some (header, input) =>
    let ver := header.getD 0 0
    let ulen := header.getD 1 0
    if ver ≠ 1 then
      (.error .invalidAuthVersion, input, (sendAll [1, 1] c).2)
    else
      match takeN? ulen input with
      | none => (.error .eofError, input, c)
      | some (unameBuf, input) =>
        match takeN? 1 input with
        | none => (.error .eofError, input, c)
        | some (plenBuf, input) =>
          match takeN? (plenBuf.getD 0 0) input with
          | none => (.error .eofError, input, c)
          | some (passBuf, input) =>
            if authenticate (utf8Lossy unameBuf) (utf8Lossy passBuf) env then
              match sendAll [1, 0] c with
              | (.error e, c) => (.error e, input, c)
              | (.ok _, c) => (.ok (), input, c)
            else
              match sendAll [1, 1] c with
              | (.error e, c) => (.error e, input, c)
              | (.ok _, c) => (.error .authenticationFailed, input, c)

/-- Request, connect and relay phases of `handle_client` (everything after
method negotiation).  Reads a request; rejects non-CONNECT commands with a
CommandNotSupported reply; attempts the outbound connection, answering
GeneralFailure and propagating the connect error on failure; on success
sends a Succeeded reply carrying the outbound socket's local address and
runs the relay engine. -/
def afterAuth (w : World) (input : List Nat) (c : Conn) :
    Except SessionError Unit × List Nat × Conn :=
  let c := { c with trace := c.trace ++ [Action.readReq] }
  match read_request input with
  | .error e => (.error e, input, c)
  | .ok (req, input) =>
    if req.command ≠ Cmd.connect then
      match sendAll (encodeReply .commandNotSupported none) c with
      | (.error e, c) => (.error e, input, c)
      | (.ok _, c) => (.error .unsupportedCommand, input, c)
    else
      let c := { c with trace := c.trace ++ [Action.connectTo req.address req.port] }
      if w.connectOk then
        match sendAll (encodeReply .succeeded (some (w.localAddr.getD default_bound_address))) c with
        | (.error e, c) => (.error e, input, c)
        | (.ok _, c) => (w.relayOutcome, input, { c with trace := c.trace ++ [Action.relay] })
      else
        match sendAll (encodeReply .generalFailure none) c with
        | (.error e, c) => (.error e, input, c)
        | (.ok _, c) => (.error .connectError, input, c)

/-- The `handle_client` function of `advanced.rs`: read the greeting, pick
the authentication method by priority (username/password, then no-auth,
else no acceptable method), run the chosen sub-negotiation and continue
with the request phase. -/
def handle_client (w : World) : Except SessionError Unit × List Nat × Conn :=
  let c0 : Conn := ⟨w.budget, []⟩
  match read_greeting w.input with
  | .error e => (.error e, w.input, c0)
  | .ok (methods, input) =>
    if methods.contains 2 then
      match sendAll [5, 2] c0 with
      | (.error e, c) => (.error e, input, c)
      | (.ok _, c) =>
        match perform_userpass_auth w.env input c with
        | (.error e, input, c) => (.error e, input, c)
        | (.ok _, input, c) => afterAuth w input c
    else if methods.contains 0 then
      match sendAll [5, 0] c0 with
      | (.error e, c) => (.error e, input, c)
      | (.ok _, c) => afterAuth w input c
    else
      match sendAll [5, 255] c0 with
      | (.error e, c) => (.error e, input, c)
      | (.ok _, c) => (.error .noAcceptableMethod, input, c)

/-! ## Relay engine

Each direction of `bridge` runs `io::copy` and then, on natural
completion, shuts down the destination's write half and the source's read
half.  A copy error propagates out of the direction through `?` before
the shutdown calls are reached. -/

/-- The two sockets of a session. -/
inductive Endpoint where
  | client
  | remote
deriving DecidableEq

/-- A socket shutdown operation on one half of an endpoint. -/
inductive SockOp where
  | shutdownWrite (e : Endpoint)
  | shutdownRead (e : Endpoint)
deriving DecidableEq

/-- Outcome of one `io::copy` call: total bytes copied, or the I/O error
(read or write) that ended it. -/
inductive CopyErr where
  | readFail
  | writeFail
deriving DecidableEq

/-- One direction of `bridge` (both files, both directions have the same
shape): run `io::copy` from `src` to `dst`; on success shut down `dst`'s
write half then `src`'s read half; on error return it immediately via `?`,
performing no shutdown. -/
def copyDirection (src dst : Endpoint) (copyResult : Except CopyErr Nat) :
    List SockOp × Except CopyErr Nat :=
  match copyResult with
  | .ok copied => ([.shutdownWrite dst, .shutdownRead src], .ok copied)
  | .error e => ([], .error e)

/-! ## Canonical request encoding and well-formedness -/

/-- Wire byte of each command, inverse to `Cmd.fromByte` on known codes. -/
def cmdByte : Cmd → Nat
  | .connect => 1
  | .bind => 2
  | .udpAssociate => 3
  | .unknown code => code

/-- Modelled from the spec: the canonical SOCKS5 request byte layout
(`VER=5, CMD, RSV=0, ATYP, DST.ADDR, DST.PORT` with a big-endian port),
stated here because the repository only decodes requests and has no
request encoder of its own. -/
def encodeRequestBytesFor (address : Addr) (port : Nat) (command : Cmd) : List Nat :=
  5 :: cmdByte command :: 0 ::
    ((match address with
      | .ipv4 octets => 1 :: octets
      | .domain name => 3 :: (utf8Encode name).length :: utf8Encode name
      | .ipv6 octets => 4 :: octets) ++ [port / 256, port % 256])

/-- Well-formed address: octet lists of wire length, and a domain whose
UTF-8 encoding fits the one-byte length prefix. -/
def wfAddr : Addr → Prop
  | .ipv4 octets => octets.length = 4
  | .domain name => (utf8Encode name).length ≤ 255
  | .ipv6 octets => octets.length = 16

/-- Well-formed socket address: the octet list has the wire length of its
family and the port fits in 16 bits. -/
def wfSockAddr : SockAddr → Prop
  | .v4 octets port => octets.length = 4 ∧ port < 65536
  | .v6 octets port => octets.length = 16 ∧ port < 65536

/-! ## Helper lemmas: exact reads -/

theorem takeN?_length_append (l r : List Nat) : takeN? l.length (l ++ r) = some (l, r) := by
  have h : l.length ≤ (l ++ r).length := by
    simp only [List.length_append]
    omega
  simp [takeN?, h, List.take_left, List.drop_left]

theorem takeN?_one (a : Nat) (l : List Nat) : takeN? 1 (a :: l) = some ([a], l) := by
  have h : 1 ≤ (a :: l).length := by
    simp only [List.length_cons]
    omega
  simp [takeN?, h]

theorem takeN?_two (a b : Nat) (l : List Nat) : takeN? 2 (a :: b :: l) = some ([a, b], l) := by
  have h : 2 ≤ (a :: b :: l).length := by
    simp only [List.length_cons]
    omega
  simp [takeN?, h]

theorem takeN?_four (a b c d : Nat) (l : List Nat) :
    takeN? 4 (a :: b :: c :: d :: l) = some ([a, b, c, d], l) := by
  have h : 4 ≤ (a :: b :: c :: d :: l).length := by
    simp only [List.length_cons]
    omega
  simp [takeN?, h]

theorem read_greeting_ok (n : Nat) (methods rest : List Nat) (h : methods.length = n) :
    read_greeting (5 :: n :: (methods ++ rest)) = .ok (methods, rest) := by
  subst h
  simp [read_greeting, takeN?_length_append]

/-! ## Helper lemmas: request decoding -/

theorem read_request_badver (v c r a : Nat) (rest : List Nat) (hv : v ≠ 5) :
    read_request (v :: c :: r :: a :: rest) = .error .protocolVersion := by
  simp [read_request, hv]

theorem read_request_badrsv (c r a : Nat) (rest : List Nat) (hr : r ≠ 0) :
    read_request (5 :: c :: r :: a :: rest) = .error .malformedRequest := by
  simp [read_request, hr]

theorem read_request_badatyp (c a : Nat) (rest : List Nat)
    (ha : a ≠ 1 ∧ a ≠ 3 ∧ a ≠ 4) :
    read_request (5 :: c :: 0 :: a :: rest) = .error .unsupportedAddressType := by
  obtain ⟨h1, h3, h4⟩ := ha
  simp only [read_request]
  rw [if_neg (by omega), if_neg (by omega)]
  have : readAddr a rest = .error .unsupportedAddressType := by
    unfold readAddr
    split
    · omega
    · omega
    · omega
    · rfl
  rw [this]

theorem read_request_ipv4 (c o1 o2 o3 o4 p1 p2 : Nat) (tail : List Nat) :
    read_request (5 :: c :: 0 :: 1 :: o1 :: o2 :: o3 :: o4 :: p1 :: p2 :: tail) =
      .ok (⟨Cmd.fromByte c, .ipv4 [o1, o2, o3, o4], p1 * 256 + p2⟩, tail) := by
  simp [read_request, readAddr, takeN?_four]

theorem read_request_domain (c dlen p1 p2 : Nat) (dbytes tail : List Nat)
    (hd : dbytes.length = dlen) :
    read_request (5 :: c :: 0 :: 3 :: dlen :: (dbytes ++ p1 :: p2 :: tail)) =
      .ok (⟨Cmd.fromByte c, .domain (utf8Lossy dbytes), p1 * 256 + p2⟩, tail) := by
  subst hd
  simp [read_request, readAddr, takeN?_length_append]

theorem read_request_ipv6 (c p1 p2 : Nat) (seg tail : List Nat) (hs : seg.length = 16) :
    read_request (5 :: c :: 0 :: 4 :: (seg ++ p1 :: p2 :: tail)) =
      .ok (⟨Cmd.fromByte c, .ipv6 seg, p1 * 256 + p2⟩, tail) := by
  have h16 : takeN? 16 (seg ++ p1 :: p2 :: tail) = some (seg, p1 :: p2 :: tail) := by
    rw [← hs]
    exact takeN?_length_append seg (p1 :: p2 :: tail)
  simp [read_request, readAddr, h16]

/-! ## Helper lemmas: UTF-8 round trip -/

theorem utf8Cont_of (b : Nat) (h1 : 128 ≤ b) (h2 : b ≤ 191) : utf8Cont b = true := by
  simp only [utf8Cont, Bool.and_eq_true, decide_eq_true_eq]
  exact ⟨h1, h2⟩

theorem utf8Cont3First_of (b0 b1 : Nat)
    (h : (b0 = 224 ∧ 160 ≤ b1 ∧ b1 ≤ 191) ∨ (b0 = 237 ∧ 128 ≤ b1 ∧ b1 ≤ 159) ∨
      (b0 ≠ 224 ∧ b0 ≠ 237 ∧ 128 ≤ b1 ∧ b1 ≤ 191)) :
    utf8Cont3First b0 b1 = true := by
  unfold utf8Cont3First utf8Cont
  split
  · simp only [Bool.and_eq_true, decide_eq_true_eq]
    omega
  · split
    · simp only [Bool.and_eq_true, decide_eq_true_eq]
      omega
    · simp only [Bool.and_eq_true, decide_eq_true_eq]
      omega

theorem utf8Cont4First_of (b0 b1 : Nat)
    (h : (b0 = 240 ∧ 144 ≤ b1 ∧ b1 ≤ 191) ∨ (b0 = 244 ∧ 128 ≤ b1 ∧ b1 ≤ 143) ∨
      (b0 ≠ 240 ∧ b0 ≠ 244 ∧ 128 ≤ b1 ∧ b1 ≤ 191)) :
    utf8Cont4First b0 b1 = true := by
  unfold utf8Cont4First utf8Cont
  split
  · simp only [Bool.and_eq_true, decide_eq_true_eq]
    omega
  · split
    · simp only [Bool.and_eq_true, decide_eq_true_eq]
      omega
    · simp only [Bool.and_eq_true, decide_eq_true_eq]
      omega

theorem char_toNat_valid (c : Char) :
    c.toNat < 55296 ∨ (57343 < c.toNat ∧ c.toNat < 1114112) := c.valid

theorem utf8Lossy_cons (b : Nat) (rest : List Nat) :
    utf8Lossy (b :: rest) =
      (utf8Step b rest).1 :: utf8Lossy (rest.drop (utf8Step b rest).2) := by
  rw [utf8Lossy]

theorem utf8Step_encodeChar (c : Char) (rest : List Nat) :
    ∃ b r, utf8EncodeChar c = b :: r ∧ utf8Step b (r ++ rest) = (c, r.length) := by
  have hv := char_toNat_valid c
  by_cases h1 : c.toNat < 128
  · refine ⟨c.toNat, [], by simp [utf8EncodeChar, h1], ?_⟩
    simp only [List.nil_append, utf8Step, if_pos h1, Char.ofNat_toNat, List.length_nil]
  · by_cases h2 : c.toNat < 2048
    · refine ⟨192 + c.toNat / 64, [128 + c.toNat % 64], by simp [utf8EncodeChar, h1, h2], ?_⟩
      simp only [List.cons_append, List.nil_append, utf8Step]
      rw [if_neg (by omega), if_neg (by omega), if_pos (by omega),
        if_pos (utf8Cont_of _ (by omega) (by omega))]
      have hval : (192 + c.toNat / 64 - 192) * 64 + (128 + c.toNat % 64 - 128) = c.toNat := by
        omega
      rw [hval, Char.ofNat_toNat]
      simp
    · by_cases h3 : c.toNat < 65536
      · refine ⟨224 + c.toNat / 4096, [128 + c.toNat / 64 % 64, 128 + c.toNat % 64],
          by simp [utf8EncodeChar, h1, h2, h3], ?_⟩
        simp only [List.cons_append, List.nil_append, utf8Step]
        rw [if_neg (by omega), if_neg (by omega), if_neg (by omega), if_pos (by omega),
          if_pos (utf8Cont3First_of _ _ (by omega)),
          if_pos (utf8Cont_of _ (by omega) (by omega))]
        have hval : (224 + c.toNat / 4096 - 224) * 4096 +
            (128 + c.toNat / 64 % 64 - 128) * 64 + (128 + c.toNat % 64 - 128) = c.toNat := by
          omega
        rw [hval, Char.ofNat_toNat]
        simp
      · refine ⟨240 + c.toNat / 262144,
          [128 + c.toNat / 4096 % 64, 128 + c.toNat / 64 % 64, 128 + c.toNat % 64],
          by simp [utf8EncodeChar, h1, h2, h3], ?_⟩
        simp only [List.cons_append, List.nil_append, utf8Step]
        rw [if_neg (by omega), if_neg (by omega), if_neg (by omega), if_neg (by omega),
          if_pos (by omega),
          if_pos (utf8Cont4First_of _ _ (by omega)),
          if_pos (utf8Cont_of _ (by omega) (by omega)),
          if_pos (utf8Cont_of _ (by omega) (by omega))]
        have hval : (240 + c.toNat / 262144 - 240) * 262144 +
            (128 + c.toNat / 4096 % 64 - 128) * 4096 +
            (128 + c.toNat / 64 % 64 - 128) * 64 + (128 + c.toNat % 64 - 128) = c.toNat := by
          omega
        rw [hval, Char.ofNat_toNat]
        simp

theorem utf8Lossy_encode (s : List Char) : utf8Lossy (utf8Encode s) = s := by
  induction s with
  | nil => simp [utf8Encode, utf8Lossy]
  | cons c s ih =>
    obtain ⟨b, r, henc, hstep⟩ := utf8Step_encodeChar c (utf8Encode s)
    have hshape : utf8Encode (c :: s) = b :: (r ++ utf8Encode s) := by
      simp [utf8Encode, henc]
    rw [hshape, utf8Lossy_cons, hstep]
    simp [List.drop_left, ih]

/-! ## Helper lemmas: session phases -/

theorem sendAll_none (b : List Nat) (t : List Action) :
    sendAll b ⟨none, t⟩ = (.ok (), ⟨none, t ++ [.send b]⟩) := rfl

theorem sendAll_trace (b : List Nat) (c : Conn) :
    ∃ t, (sendAll b c).2.trace = c.trace ++ t := by
  obtain ⟨bud, tr⟩ := c
  cases bud
  · exact ⟨[.send b], rfl⟩
  · unfold sendAll
    dsimp only
    split
    · exact ⟨[.send b], rfl⟩
    · exact ⟨[], by simp⟩

theorem trace_of_sendAll_eq {b : List Nat} {c c' : Conn} {r : Except SessionError Unit}
    (h : sendAll b c = (r, c')) : ∃ t, c'.trace = c.trace ++ t := by
  have h2 := sendAll_trace b c
  rw [h] at h2
  exact h2

theorem handle_client_eq (w : World) (n : Nat) (methods rest : List Nat)
    (hin : w.input = 5 :: n :: (methods ++ rest)) (hlen : methods.length = n) :
    handle_client w =
      if methods.contains 2 then
        match sendAll [5, 2] ⟨w.budget, []⟩ with
        | (.error e, c) => (.error e, rest, c)
        | (.ok _, c) =>
          match perform_userpass_auth w.env rest c with
          | (.error e, input, c) => (.error e, input, c)
          | (.ok _, input, c) => afterAuth w input c
      else if methods.contains 0 then
        match sendAll [5, 0] ⟨w.budget, []⟩ with
        | (.error e, c) => (.error e, rest, c)
        | (.ok _, c) => afterAuth w rest c
      else
        match sendAll [5, 255] ⟨w.budget, []⟩ with
        | (.error e, c) => (.error e, rest, c)
        | (.ok _, c) => (.error .noAcceptableMethod, rest, c) := by
  unfold handle_client
  rw [hin, read_greeting_ok n methods rest hlen]

theorem auth_badver (env : EnvConfig) (ver ulen : Nat) (rest : List Nat) (tr : List Action)
    (hv : ver ≠ 1) :
    perform_userpass_auth env (ver :: ulen :: rest) ⟨none, tr⟩ =
      (.error .invalidAuthVersion, rest, ⟨none, tr ++ [.send [1, 1]]⟩) := by
  unfold perform_userpass_auth
  rw [takeN?_two]
  simp [hv, sendAll_none]

theorem auth_ok (env : EnvConfig) (ulen plen : Nat) (uname pass rest : List Nat)
    (tr : List Action) (hu : uname.length = ulen) (hp : pass.length = plen)
    (hauth : authenticate (utf8Lossy uname) (utf8Lossy pass) env = true) :
    perform_userpass_auth env (1 :: ulen :: (uname ++ plen :: (pass ++ rest))) ⟨none, tr⟩ =
      (.ok (), rest, ⟨none, tr ++ [.send [1, 0]]⟩) := by
  subst hu hp
  unfold perform_userpass_auth
  rw [takeN?_two]
  simp only [List.getD_cons_zero, List.getD_cons_succ, ne_eq, reduceIte,
    takeN?_length_append, takeN?_one]
  simp [hauth, sendAll_none]

theorem auth_fail (env : EnvConfig) (ulen plen : Nat) (uname pass rest : List Nat)
    (tr : List Action) (hu : uname.length = ulen) (hp : pass.length = plen)
    (hauth : authenticate (utf8Lossy uname) (utf8Lossy pass) env = false) :
    perform_userpass_auth env (1 :: ulen :: (uname ++ plen :: (pass ++ rest))) ⟨none, tr⟩ =
      (.error .authenticationFailed, rest, ⟨none, tr ++ [.send [1, 1]]⟩) := by
  subst hu hp
  unfold perform_userpass_auth
  rw [takeN?_two]
  simp only [List.getD_cons_zero, List.getD_cons_succ, ne_eq, reduceIte,
    takeN?_length_append, takeN?_one]
  simp [hauth, sendAll_none]

theorem auth_trace (env : EnvConfig) (input : List Nat) (c : Conn) :
    ∃ t, (perform_userpass_auth env input c).2.2.trace = c.trace ++ t := by
  unfold perform_userpass_auth
  dsimp only
  repeat' split
  all_goals try (refine ⟨[], ?_⟩; simp; done)
  all_goals try exact sendAll_trace _ _
  all_goals rename_i heq
  all_goals obtain ⟨t, ht⟩ := trace_of_sendAll_eq heq
  all_goals exact ⟨t, ht⟩

theorem encodeReply_cns : encodeReply .commandNotSupported none = [5, 7, 0, 1, 0, 0, 0, 0, 0, 0] :=
  rfl

theorem encodeReply_gf : encodeReply .generalFailure none = [5, 1, 0, 1, 0, 0, 0, 0, 0, 0] :=
  rfl

theorem sendAll_cases (b : List Nat) (c : Conn) :
    (∃ bud, sendAll b c = (.ok (), ⟨bud, c.trace ++ [.send b]⟩)) ∨
    sendAll b c = (.error .transportError, c) := by
  obtain ⟨bud, tr⟩ := c
  cases bud with
  | none => exact .inl ⟨none, rfl⟩
  | some k =>
    unfold sendAll
    dsimp only
    split
    · exact .inl ⟨some (k - b.length), rfl⟩
    · exact .inr rfl

theorem afterAuth_readReq (w : World) (input : List Nat) (c : Conn) :
    ∃ t, (afterAuth w input c).2.2.trace = c.trace ++ Action.readReq :: t := by
  unfold afterAuth
  dsimp only
  repeat' split
  all_goals try (refine ⟨[], ?_⟩; simp; done)
  all_goals rename_i heq
  all_goals obtain ⟨t, ht⟩ := trace_of_sendAll_eq heq
  all_goals exact ⟨_, by simp [ht]; try rfl⟩

theorem afterAuth_reject (w : World) (input rest : List Nat) (req : Req) (tr : List Action)
    (hr : read_request input = .ok (req, rest)) (hc : req.command ≠ Cmd.connect) :
    afterAuth w input ⟨none, tr⟩ =
      (.error .unsupportedCommand, rest,
        ⟨none, tr ++ [Action.readReq, Action.send [5, 7, 0, 1, 0, 0, 0, 0, 0, 0]]⟩) := by
  unfold afterAuth
  rw [hr]
  simp [hc, sendAll_none, encodeReply_cns]

theorem afterAuth_connect_fail (w : World) (input rest : List Nat) (req : Req) (c : Conn)
    (hr : read_request input = .ok (req, rest)) (hc : req.command = Cmd.connect)
    (hw : w.connectOk = false) :
    ((afterAuth w input c).1 = .error .connectError ∧
      (afterAuth w input c).2.2.trace =
        c.trace ++ [Action.readReq, Action.connectTo req.address req.port,
          Action.send [5, 1, 0, 1, 0, 0, 0, 0, 0, 0]]) ∨
    ((afterAuth w input c).1 = .error .transportError ∧
      (afterAuth w input c).2.2.trace =
        c.trace ++ [Action.readReq, Action.connectTo req.address req.port]) := by
  unfold afterAuth
  rw [hr]
  simp only [hc, ne_eq, not_true_eq_false, reduceIte, hw, Bool.false_eq_true, encodeReply_gf]
  rcases sendAll_cases [5, 1, 0, 1, 0, 0, 0, 0, 0, 0]
      ⟨({ budget := c.budget, trace := c.trace ++ [Action.readReq] } : Conn).budget,
        ({ budget := c.budget, trace := c.trace ++ [Action.readReq] } : Conn).trace ++
          [Action.connectTo req.address req.port]⟩ with ⟨bud, heq⟩ | heq
  · rw [heq]
    left
    constructor
    · rfl
    · simp
  · rw [heq]
    right
    constructor
    · rfl
    · simp

/-! ## Claims -/

/-- C3: `decodeRequest` failure conditions — with a readable four-byte
header, a version byte other than 5 fails with `ProtocolVersionError`
whatever the dependent bytes are; with version 5 a non-zero reserved byte
fails with `MalformedRequestError`; an ATYP byte other than 0x01, 0x03,
0x04 fails with `UnsupportedAddressTypeError`; and for the supported ATYP
values the address is read as exactly 4 bytes, 1 length byte plus that
many bytes, or 16 bytes, followed by a two-byte big-endian port. -/
theorem decodeRequest_failure_conditions :
    (∀ v c r a rest, v ≠ 5 →
      read_request (v :: c :: r :: a :: rest) = .error .protocolVersion) ∧
    (∀ c r a rest, r ≠ 0 →
      read_request (5 :: c :: r :: a :: rest) = .error .malformedRequest) ∧
    (∀ c a rest, a ≠ 1 → a ≠ 3 → a ≠ 4 →
      read_request (5 :: c :: 0 :: a :: rest) = .error .unsupportedAddressType) ∧
    (∀ c o1 o2 o3 o4 p1 p2 tail,
      read_request (5 :: c :: 0 :: 1 :: o1 :: o2 :: o3 :: o4 :: p1 :: p2 :: tail) =
        .ok (⟨Cmd.fromByte c, .ipv4 [o1, o2, o3, o4], p1 * 256 + p2⟩, tail)) ∧
    (∀ c dlen p1 p2 (dbytes tail : List Nat), dbytes.length = dlen →
      read_request (5 :: c :: 0 :: 3 :: dlen :: (dbytes ++ p1 :: p2 :: tail)) =
        .ok (⟨Cmd.fromByte c, .domain (utf8Lossy dbytes), p1 * 256 + p2⟩, tail)) ∧
    (∀ c p1 p2 (seg tail : List Nat), seg.length = 16 →
      read_request (5 :: c :: 0 :: 4 :: (seg ++ p1 :: p2 :: tail)) =
        .ok (⟨Cmd.fromByte c, .ipv6 seg, p1 * 256 + p2⟩, tail)) := by
  refine ⟨read_request_badver, read_request_badrsv,
    fun c a rest h1 h3 h4 => read_request_badatyp c a rest ⟨h1, h3, h4⟩,
    read_request_ipv4,
    fun c dlen p1 p2 dbytes tail hd => read_request_domain c dlen p1 p2 dbytes tail hd,
    fun c p1 p2 seg tail hs => read_request_ipv6 c p1 p2 seg tail hs⟩

/-- C3 witness: each failure condition and each success shape evaluated at
one concrete request. -/
theorem decodeRequest_failure_conditions_witness :
    read_request [4, 1, 0, 1, 9, 9, 9, 9, 0, 80] = .error .protocolVersion ∧
    read_request [5, 1, 7, 1, 9, 9, 9, 9, 0, 80] = .error .malformedRequest ∧
    read_request [5, 1, 0, 2, 9, 9, 9, 9, 0, 80] = .error .unsupportedAddressType ∧
    read_request [5, 1, 0, 1, 10, 0, 0, 1, 0, 80] =
      .ok (⟨.connect, .ipv4 [10, 0, 0, 1], 80⟩, []) ∧
    read_request [5, 1, 0, 4, 1, 2, 3, 4, 5, 6, 7, 8, 9, 10, 11, 12, 13, 14, 15, 16, 0, 80] =
      .ok (⟨.connect, .ipv6 [1, 2, 3, 4, 5, 6, 7, 8, 9, 10, 11, 12, 13, 14, 15, 16], 80⟩, []) :=
  ⟨decodeRequest_failure_conditions.1 4 1 0 1 [9, 9, 9, 9, 0, 80] (by decide),
   decodeRequest_failure_conditions.2.1 1 7 1 [9, 9, 9, 9, 0, 80] (by decide),
   decodeRequest_failure_conditions.2.2.1 1 2 [9, 9, 9, 9, 0, 80] (by decide) (by decide)
     (by decide),
   decodeRequest_failure_conditions.2.2.2.1 1 10 0 0 1 0 80 [],
   decodeRequest_failure_conditions.2.2.2.2.2 1 0 80
     [1, 2, 3, 4, 5, 6, 7, 8, 9, 10, 11, 12, 13, 14, 15, 16] [] (by decide)⟩

/-- C5: round trip — decoding the canonical request encoding of any
well-formed address (IPv4, IPv6, or a domain whose UTF-8 form fits the
one-byte length prefix, zero-length included) and any 16-bit port with
the Connect command reproduces the address and the port exactly. -/
theorem request_roundtrip (address : Addr) (port : Nat)
    (hwf : wfAddr address) (_hport : port < 65536) :
    read_request (encodeRequestBytesFor address port .connect) =
      .ok (⟨.connect, address, port⟩, []) := by
  have hp : port / 256 * 256 + port % 256 = port := by omega
  cases address with
  | ipv4 octets =>
    have h4 : octets.length = 4 := hwf
    match octets, h4 with
    | [o1, o2, o3, o4], _ =>
      simpa [encodeRequestBytesFor, cmdByte, hp] using
        read_request_ipv4 1 o1 o2 o3 o4 (port / 256) (port % 256) []
  | domain name =>
    have h := read_request_domain 1 (utf8Encode name).length (port / 256) (port % 256)
      (utf8Encode name) [] rfl
    simpa [encodeRequestBytesFor, cmdByte, hp, utf8Lossy_encode] using h
  | ipv6 octets =>
    have h := read_request_ipv6 1 (port / 256) (port % 256) octets [] hwf
    simpa [encodeRequestBytesFor, cmdByte, hp] using h

set_option maxRecDepth 4096 in
/-- C5 witness: the round trip evaluated at a zero-length domain and at
the 255-byte boundary. -/
theorem request_roundtrip_witness :
    read_request (encodeRequestBytesFor (.domain []) 80 .connect) =
      .ok (⟨.connect, .domain [], 80⟩, []) ∧
    read_request (encodeRequestBytesFor (.domain (List.replicate 255 'a')) 65535 .connect) =
      .ok (⟨.connect, .domain (List.replicate 255 'a'), 65535⟩, []) :=
  ⟨request_roundtrip (.domain []) 80 (by simp [wfAddr, utf8Encode]) (by omega),
   request_roundtrip (.domain (List.replicate 255 'a')) 65535
     (show (utf8Encode (List.replicate 255 'a')).length ≤ 255 by decide) (by omega)⟩

/-- C9: a domain request's name bytes are decoded lossily — decoding
succeeds for every content of the domain bytes, the stored string is the
lossy decoding, and an invalid byte such as 0xFF is stored as U+FFFD, so
the stored string can differ from the raw wire bytes. -/
theorem domain_lossy_decoding :
    (∀ c dlen p1 p2 (dbytes tail : List Nat), dbytes.length = dlen →
      read_request (5 :: c :: 0 :: 3 :: dlen :: (dbytes ++ p1 :: p2 :: tail)) =
        .ok (⟨Cmd.fromByte c, .domain (utf8Lossy dbytes), p1 * 256 + p2⟩, tail)) ∧
    utf8Lossy [255] = [replacementChar] ∧
    utf8Encode (utf8Lossy [255]) ≠ [255] := by
  have hl : utf8Lossy [255] = [replacementChar] := by
    rw [utf8Lossy_cons]
    norm_num [utf8Step]
    simp [utf8Lossy]
  refine ⟨fun c dlen p1 p2 dbytes tail hd => read_request_domain c dlen p1 p2 dbytes tail hd,
    hl, ?_⟩
  rw [hl]
  decide

/-- C9 witness: a domain request whose single name byte 0xFF is not valid
UTF-8 still parses, with the replacement character stored. -/
theorem domain_lossy_decoding_witness :
    read_request [5, 1, 0, 3, 1, 255, 0, 80] =
      .ok (⟨.connect, .domain [replacementChar], 80⟩, []) := by
  have h := domain_lossy_decoding.1 1 1 0 80 [255] [] rfl
  rw [domain_lossy_decoding.2.1] at h
  exact h

/-- C6: an encoded reply with bound IPv4 address 10.0.0.1 port 4321 has
ATYP byte 0x01 and trailing six bytes 0A 00 00 01 10 E1, and an encoded
reply with no bound address carries the all-zero IPv4 address with
port 0, for every reply code. -/
theorem encodeReply_ipv4_bytes :
    (∀ r : Rep, (encodeReply r (some (.v4 [10, 0, 0, 1] 4321))).getD 3 0 = 1 ∧
      (encodeReply r (some (.v4 [10, 0, 0, 1] 4321))).drop 4 = [10, 0, 0, 1, 16, 225]) ∧
    (∀ r : Rep, encodeReply r none = [5, r.code, 0, 1, 0, 0, 0, 0, 0, 0]) :=
  ⟨fun _ => ⟨rfl, rfl⟩, fun _ => rfl⟩

/-- C10: every reply the server can emit carries ATYP 0x01 with total
length 10 or ATYP 0x04 with total length 22, and never the domain ATYP
0x03, for every reply code and every well-formed bound-address option. -/
theorem encodeReply_shape_invariant (r : Rep) (bound : Option SockAddr)
    (hwf : ∀ sa ∈ bound, wfSockAddr sa) :
    (encodeReply r bound).getD 3 0 ≠ 3 ∧
    (((encodeReply r bound).getD 3 0 = 1 ∧ (encodeReply r bound).length = 10) ∨
      ((encodeReply r bound).getD 3 0 = 4 ∧ (encodeReply r bound).length = 22)) := by
  cases bound with
  | none =>
    refine ⟨?_, .inl ⟨rfl, rfl⟩⟩
    intro h
    rw [show (encodeReply r none).getD 3 0 = 1 from rfl] at h
    omega
  | some sa =>
    cases sa with
    | v4 octets port =>
      obtain ⟨hlen, _⟩ := hwf (SockAddr.v4 octets port) rfl
      have hA : (encodeReply r (some (.v4 octets port))).getD 3 0 = 1 := rfl
      have hL : (encodeReply r (some (.v4 octets port))).length = 10 := by
        simp [encodeReply]
        omega
      exact ⟨by rw [hA]; omega, .inl ⟨hA, hL⟩⟩
    | v6 octets port =>
      obtain ⟨hlen, _⟩ := hwf (SockAddr.v6 octets port) rfl
      have hA : (encodeReply r (some (.v6 octets port))).getD 3 0 = 4 := rfl
      have hL : (encodeReply r (some (.v6 octets port))).length = 22 := by
        simp [encodeReply]
        omega
      exact ⟨by rw [hA]; omega, .inr ⟨hA, hL⟩⟩

/-- C10 witness: the shape invariant evaluated at a concrete IPv6 bound
address. -/
theorem encodeReply_shape_invariant_witness :
    (encodeReply .succeeded (some (.v6 [1, 2, 3, 4, 5, 6, 7, 8, 9, 10, 11, 12, 13, 14, 15, 16]
      443))).getD 3 0 ≠ 3 ∧
    (((encodeReply .succeeded (some (.v6 [1, 2, 3, 4, 5, 6, 7, 8, 9, 10, 11, 12, 13, 14, 15, 16]
        443))).getD 3 0 = 1 ∧
      (encodeReply .succeeded (some (.v6 [1, 2, 3, 4, 5, 6, 7, 8, 9, 10, 11, 12, 13, 14, 15, 16]
        443))).length = 10) ∨
      ((encodeReply .succeeded (some (.v6 [1, 2, 3, 4, 5, 6, 7, 8, 9, 10, 11, 12, 13, 14, 15, 16]
        443))).getD 3 0 = 4 ∧
      (encodeReply .succeeded (some (.v6 [1, 2, 3, 4, 5, 6, 7, 8, 9, 10, 11, 12, 13, 14, 15, 16]
        443))).length = 22)) :=
  encodeReply_shape_invariant .succeeded
    (some (.v6 [1, 2, 3, 4, 5, 6, 7, 8, 9, 10, 11, 12, 13, 14, 15, 16] 443))
    (by intro sa hsa
        rw [Option.mem_some_iff] at hsa
        subst hsa
        exact ⟨by decide, by omega⟩)

/-- C1: method selection policy — for a decodable greeting and an
unrestricted write budget, a method set containing 0x02 makes the server
send selection 0x02 first (even when 0x00 is also offered); otherwise a
set containing 0x00 makes it send selection 0x00; otherwise (the empty
set included) it sends selection 0xFF, terminates with the
no-acceptable-method error, and never reaches the request-reading
phase. -/
theorem method_selection_policy (w : World) (n : Nat) (methods rest : List Nat)
    (hin : w.input = 5 :: n :: (methods ++ rest)) (hlen : methods.length = n)
    (hbud : w.budget = none) :
    (methods.contains 2 = true →
      ∃ t, (handle_client w).2.2.trace = Action.send [5, 2] :: t) ∧
    (methods.contains 2 = false → methods.contains 0 = true →
      ∃ t, (handle_client w).2.2.trace = Action.send [5, 0] :: t) ∧
    (methods.contains 2 = false → methods.contains 0 = false →
      (handle_client w).1 = .error .noAcceptableMethod ∧
      (handle_client w).2.2.trace = [Action.send [5, 255]] ∧
      Action.readReq ∉ (handle_client w).2.2.trace) := by
  rw [handle_client_eq w n methods rest hin hlen, hbud]
  refine ⟨?_, ?_, ?_⟩
  · intro h2
    simp only [h2, if_true, sendAll_none, List.nil_append]
    obtain ⟨t1, ht1⟩ := auth_trace w.env rest ⟨none, [Action.send [5, 2]]⟩
    rcases hpa : perform_userpass_auth w.env rest ⟨none, [Action.send [5, 2]]⟩ with ⟨res, i2, c2⟩
    rw [hpa] at ht1
    cases res with
    | error e => exact ⟨t1, by simpa using ht1⟩
    | ok u =>
      obtain ⟨t2, ht2⟩ := afterAuth_readReq w i2 c2
      refine ⟨t1 ++ Action.readReq :: t2, ?_⟩
      simp only [ht2]
      simp at ht1
      simp [ht1]
  · intro h2 h0
    simp only [h2, h0, Bool.false_eq_true, if_false, if_true, sendAll_none, List.nil_append]
    obtain ⟨t, ht⟩ := afterAuth_readReq w rest ⟨none, [Action.send [5, 0]]⟩
    exact ⟨Action.readReq :: t, by simpa using ht⟩
  · intro h2 h0
    simp only [h2, h0, Bool.false_eq_true, if_false, sendAll_none, List.nil_append]
    exact ⟨trivial, trivial, by simp⟩

/-- C1 witness: the policy evaluated on a session offering both 0x00 and
0x02. -/
theorem method_selection_policy_witness :
    (([0, 2] : List Nat).contains 2 = true →
      ∃ t, (handle_client ⟨[5, 2, 0, 2], none, ⟨none, none⟩, true, none, .ok ()⟩).2.2.trace =
        Action.send [5, 2] :: t) ∧
    (([0, 2] : List Nat).contains 2 = false → ([0, 2] : List Nat).contains 0 = true →
      ∃ t, (handle_client ⟨[5, 2, 0, 2], none, ⟨none, none⟩, true, none, .ok ()⟩).2.2.trace =
        Action.send [5, 0] :: t) ∧
    (([0, 2] : List Nat).contains 2 = false → ([0, 2] : List Nat).contains 0 = false →
      (handle_client ⟨[5, 2, 0, 2], none, ⟨none, none⟩, true, none, .ok ()⟩).1 =
        .error .noAcceptableMethod ∧
      (handle_client ⟨[5, 2, 0, 2], none, ⟨none, none⟩, true, none, .ok ()⟩).2.2.trace =
        [Action.send [5, 255]] ∧
      Action.readReq ∉
        (handle_client ⟨[5, 2, 0, 2], none, ⟨none, none⟩, true, none, .ok ()⟩).2.2.trace) :=
  method_selection_policy ⟨[5, 2, 0, 2], none, ⟨none, none⟩, true, none, .ok ()⟩
    2 [0, 2] [] rfl (by decide) rfl

/-- C2: authentication — `authenticate` succeeds exactly when the
username and password equal the expected values (the environment
overrides when set, else the defaults "user" and "password"); in a
session that selected method 0x02, matching credentials with
sub-negotiation version 1 make the server send [1, 0] and proceed to the
request phase, while mismatching credentials or a version byte other
than 1 make it send [1, 1] and terminate without reading a request. -/
theorem userpass_authentication (w : World) (n ver ulen plen : Nat)
    (methods uname pass tail : List Nat)
    (hin : w.input = 5 :: n :: (methods ++ ver :: ulen :: (uname ++ plen :: (pass ++ tail))))
    (hlen : methods.length = n) (hm : methods.contains 2 = true)
    (hu : uname.length = ulen) (hp : pass.length = plen) (hbud : w.budget = none) :
    (∀ u p env, authenticate u p env = true ↔
      (u = env.user.getD "user".toList ∧ p = env.pass.getD "password".toList)) ∧
    (ver = 1 → authenticate (utf8Lossy uname) (utf8Lossy pass) w.env = true →
      ∃ t, (handle_client w).2.2.trace =
        Action.send [5, 2] :: Action.send [1, 0] :: Action.readReq :: t) ∧
    (ver = 1 → authenticate (utf8Lossy uname) (utf8Lossy pass) w.env = false →
      (handle_client w).1 = .error .authenticationFailed ∧
      (handle_client w).2.2.trace = [Action.send [5, 2], Action.send [1, 1]] ∧
      Action.readReq ∉ (handle_client w).2.2.trace) ∧
    (ver ≠ 1 →
      (handle_client w).1 = .error .invalidAuthVersion ∧
      (handle_client w).2.2.trace = [Action.send [5, 2], Action.send [1, 1]] ∧
      Action.readReq ∉ (handle_client w).2.2.trace) := by
  rw [handle_client_eq w n methods (ver :: ulen :: (uname ++ plen :: (pass ++ tail))) hin hlen,
    hbud]
  refine ⟨?_, ?_, ?_, ?_⟩
  · intro u p env
    simp [authenticate, expectedUser, expectedPass]
  · intro hv hauth
    subst hv
    simp only [hm, if_true, sendAll_none, List.nil_append]
    rw [auth_ok w.env ulen plen uname pass tail [Action.send [5, 2]] hu hp hauth]
    obtain ⟨t, ht⟩ := afterAuth_readReq w tail ⟨none, [Action.send [5, 2]] ++ [Action.send [1, 0]]⟩
    exact ⟨t, by simpa using ht⟩
  · intro hv hauth
    subst hv
    simp only [hm, if_true, sendAll_none, List.nil_append]
    rw [auth_fail w.env ulen plen uname pass tail [Action.send [5, 2]] hu hp hauth]
    exact ⟨rfl, rfl, by simp⟩
  · intro hv
    simp only [hm, if_true, sendAll_none, List.nil_append]
    rw [auth_badver w.env ver ulen (uname ++ plen :: (pass ++ tail)) [Action.send [5, 2]] hv]
    exact ⟨rfl, rfl, by simp⟩

/-- C2 witness: the authentication contract evaluated on a concrete
session offering method 0x02 with a one-byte username and password. -/
theorem userpass_authentication_witness :
    (∀ u p env, authenticate u p env = true ↔
      (u = env.user.getD "user".toList ∧ p = env.pass.getD "password".toList)) ∧
    ((1 : Nat) = 1 →
      authenticate (utf8Lossy [117]) (utf8Lossy [112]) (⟨none, none⟩ : EnvConfig) = true →
      ∃ t, (handle_client ⟨[5, 1, 2, 1, 1, 117, 1, 112], none, ⟨none, none⟩, true, none,
        .ok ()⟩).2.2.trace =
        Action.send [5, 2] :: Action.send [1, 0] :: Action.readReq :: t) ∧
    ((1 : Nat) = 1 →
      authenticate (utf8Lossy [117]) (utf8Lossy [112]) (⟨none, none⟩ : EnvConfig) = false →
      (handle_client ⟨[5, 1, 2, 1, 1, 117, 1, 112], none, ⟨none, none⟩, true, none,
        .ok ()⟩).1 = .error .authenticationFailed ∧
      (handle_client ⟨[5, 1, 2, 1, 1, 117, 1, 112], none, ⟨none, none⟩, true, none,
        .ok ()⟩).2.2.trace = [Action.send [5, 2], Action.send [1, 1]] ∧
      Action.readReq ∉ (handle_client ⟨[5, 1, 2, 1, 1, 117, 1, 112], none, ⟨none, none⟩, true,
        none, .ok ()⟩).2.2.trace) ∧
    ((1 : Nat) ≠ 1 →
      (handle_client ⟨[5, 1, 2, 1, 1, 117, 1, 112], none, ⟨none, none⟩, true, none,
        .ok ()⟩).1 = .error .invalidAuthVersion ∧
      (handle_client ⟨[5, 1, 2, 1, 1, 117, 1, 112], none, ⟨none, none⟩, true, none,
        .ok ()⟩).2.2.trace = [Action.send [5, 2], Action.send [1, 1]] ∧
      Action.readReq ∉ (handle_client ⟨[5, 1, 2, 1, 1, 117, 1, 112], none, ⟨none, none⟩, true,
        none, .ok ()⟩).2.2.trace) :=
  userpass_authentication ⟨[5, 1, 2, 1, 1, 117, 1, 112], none, ⟨none, none⟩, true, none, .ok ()⟩
    1 1 1 1 [2] [117] [112] [] rfl (by decide) (by decide) (by decide) (by decide) rfl

/-- C4: an unrecognized command byte is a valid parse — the byte maps to
a command by 1 to Connect, 2 to Bind, 3 to UdpAssociate and anything else
to Unknown of that code, decoding succeeds with that mapping, and a
parsed request whose command is not Connect is answered with exactly the
CommandNotSupported reply bytes 05 07 00 01 00 00 00 00 00 00 before the
session terminates without any outbound connection attempt. -/
theorem command_mapping_and_rejection :
    (Cmd.fromByte 1 = .connect ∧ Cmd.fromByte 2 = .bind ∧ Cmd.fromByte 3 = .udpAssociate ∧
      ∀ b, b ≠ 1 → b ≠ 2 → b ≠ 3 → Cmd.fromByte b = .unknown b) ∧
    (∀ b o1 o2 o3 o4 p1 p2 (tail : List Nat),
      read_request (5 :: b :: 0 :: 1 :: o1 :: o2 :: o3 :: o4 :: p1 :: p2 :: tail) =
        .ok (⟨Cmd.fromByte b, .ipv4 [o1, o2, o3, o4], p1 * 256 + p2⟩, tail)) ∧
    (∀ (w : World) (input rest : List Nat) (req : Req) (tr : List Action),
      read_request input = .ok (req, rest) → req.command ≠ Cmd.connect →
      afterAuth w input ⟨none, tr⟩ =
        (.error .unsupportedCommand, rest,
          ⟨none, tr ++ [Action.readReq, Action.send [5, 7, 0, 1, 0, 0, 0, 0, 0, 0]]⟩) ∧
      (∀ a p, Action.connectTo a p ∉
        [Action.readReq, Action.send [5, 7, 0, 1, 0, 0, 0, 0, 0, 0]])) := by
  refine ⟨⟨rfl, rfl, rfl, ?_⟩, read_request_ipv4, ?_⟩
  · intro b h1 h2 h3
    rcases b with _ | _ | _ | _ | b
    · rfl
    · exact absurd rfl h1
    · exact absurd rfl h2
    · exact absurd rfl h3
    · rfl
  · intro w input rest req tr hr hc
    exact ⟨afterAuth_reject w input rest req tr hr hc, fun a p => by simp⟩

/-- C4 witness: the rejection evaluated on a concrete BIND request. -/
theorem command_mapping_and_rejection_witness :
    Cmd.fromByte 9 = .unknown 9 ∧
    afterAuth ⟨[], none, ⟨none, none⟩, true, none, .ok ()⟩ [5, 2, 0, 1, 9, 9, 9, 9, 0, 80]
        ⟨none, []⟩ =
      (.error .unsupportedCommand, [],
        ⟨none, [Action.readReq, Action.send [5, 7, 0, 1, 0, 0, 0, 0, 0, 0]]⟩) :=
  ⟨command_mapping_and_rejection.1.2.2.2 9 (by decide) (by decide) (by decide),
   (command_mapping_and_rejection.2.2 ⟨[], none, ⟨none, none⟩, true, none, .ok ()⟩
     [5, 2, 0, 1, 9, 9, 9, 9, 0, 80] [] ⟨.bind, .ipv4 [9, 9, 9, 9], 80⟩ []
     (by decide) (by decide)).1⟩

/-- C7: reply before failure — when the outbound connection of a parsed
Connect request fails, the last action before the connect error is
surfaced is sending the GeneralFailure reply with no bound address; the
only run in which no reply follows the attempt is one where sending that
reply itself fails, and there the transport error takes precedence. -/
theorem reply_before_connect_failure (w : World) (input rest : List Nat) (req : Req)
    (c : Conn) (hr : read_request input = .ok (req, rest)) (hc : req.command = Cmd.connect)
    (hw : w.connectOk = false) :
    ((afterAuth w input c).1 = .error .connectError ∧
      (afterAuth w input c).2.2.trace =
        c.trace ++ [Action.readReq, Action.connectTo req.address req.port,
          Action.send (encodeReply .generalFailure none)]) ∨
    ((afterAuth w input c).1 = .error .transportError ∧
      (afterAuth w input c).2.2.trace =
        c.trace ++ [Action.readReq, Action.connectTo req.address req.port]) := by
  have h := afterAuth_connect_fail w input rest req c hr hc hw
  simpa [encodeReply_gf] using h

/-- C7 witness: the disjunction evaluated on a concrete Connect request
whose outbound connection fails. -/
theorem reply_before_connect_failure_witness :
    ((afterAuth ⟨[], none, ⟨none, none⟩, false, none, .ok ()⟩ [5, 1, 0, 1, 9, 9, 9, 9, 0, 80]
        ⟨none, []⟩).1 = .error .connectError ∧
      (afterAuth ⟨[], none, ⟨none, none⟩, false, none, .ok ()⟩ [5, 1, 0, 1, 9, 9, 9, 9, 0, 80]
        ⟨none, []⟩).2.2.trace =
        [Action.readReq, Action.connectTo (.ipv4 [9, 9, 9, 9]) 80,
          Action.send (encodeReply .generalFailure none)]) ∨
    ((afterAuth ⟨[], none, ⟨none, none⟩, false, none, .ok ()⟩ [5, 1, 0, 1, 9, 9, 9, 9, 0, 80]
        ⟨none, []⟩).1 = .error .transportError ∧
      (afterAuth ⟨[], none, ⟨none, none⟩, false, none, .ok ()⟩ [5, 1, 0, 1, 9, 9, 9, 9, 0, 80]
        ⟨none, []⟩).2.2.trace =
        [Action.readReq, Action.connectTo (.ipv4 [9, 9, 9, 9]) 80]) :=
  reply_before_connect_failure ⟨[], none, ⟨none, none⟩, false, none, .ok ()⟩
    [5, 1, 0, 1, 9, 9, 9, 9, 0, 80] [] ⟨.connect, .ipv4 [9, 9, 9, 9], 80⟩ ⟨none, []⟩
    (by decide) rfl rfl

/-- C8 counterexample: in `bridge`, a direction whose copy ends with a
read error performs no shutdown at all — in particular the destination
write half is not shut down — because the `?` after `io::copy` returns
before the shutdown calls are reached, contradicting the claim that a
read error still shuts the halves down. -/
theorem relay_halfclose_counterexample :
    (copyDirection .client .remote (.error .readFail)).1 = [] ∧
    SockOp.shutdownWrite .remote ∉ (copyDirection .client .remote (.error .readFail)).1 :=
  ⟨rfl, by decide⟩

/-- C8 amended: when a direction's copy finishes naturally at
end-of-stream, that direction's destination write half and source read
half are shut down and the other direction's halves are never touched;
when the copy ends with an error (a read error included) the error
propagates and the direction performs no shutdown at all. -/
theorem relay_halfclose_amended (src dst : Endpoint) (hne : src ≠ dst) :
    (∀ n, copyDirection src dst (.ok n) =
      ([.shutdownWrite dst, .shutdownRead src], .ok n)) ∧
    (∀ e, copyDirection src dst (.error e) = ([], .error e)) ∧
    (∀ res, SockOp.shutdownWrite src ∉ (copyDirection src dst res).1 ∧
      SockOp.shutdownRead dst ∉ (copyDirection src dst res).1) := by
  refine ⟨fun n => rfl, fun e => rfl, fun res => ?_⟩
  have hne2 : dst ≠ src := Ne.symm hne
  cases res with
  | ok n =>
    constructor
    · simp [copyDirection, hne]
    · simp [copyDirection, hne2]
  | error e =>
    constructor
    · simp [copyDirection]
    · simp [copyDirection]

/-- C8 amended witness: the amended statement evaluated for the
client-to-remote direction. -/
theorem relay_halfclose_amended_witness :
    (∀ n, copyDirection .client .remote (.ok n) =
      ([.shutdownWrite .remote, .shutdownRead .client], .ok n)) ∧
    (∀ e, copyDirection .client .remote (.error e) = ([], .error e)) ∧
    (∀ res, SockOp.shutdownWrite .client ∉ (copyDirection .client .remote res).1 ∧
      SockOp.shutdownRead .remote ∉ (copyDirection .client .remote res).1) :=
  relay_halfclose_amended .client .remote (by decide)

end Socks5
